import Mathlib

/-!
Shallow embedding of `mqtt.py` (a MicroPython MQTT 3.1.1 client) and a
verification of its natural-language specification.

Modelling conventions:
* byte strings are `List Nat` (one entry per byte); UTF-8 encoding and
  decoding of topic/payload text is outside the protocol boundary and is
  modelled as the identity on byte lists;
* socket reads are modelled by threading an explicit input stream
  (`List Nat`); every byte string passed to `sendall` is collected into
  an output list;
* raised Python exceptions (assertion failures, unpacking errors, unbound
  locals, index errors) are modelled as `none` / error results.
-/

def P_CONNACK : Nat := 2

def P_PUBLISH : Nat := 3

def P_PUBACK : Nat := 4

def P_PUBREL : Nat := 6

def P_SUBSCRIBE : Nat := 8

def P_SUBACK : Nat := 9

def P_UNSUBSCRIBE : Nat := 10

def P_PINGRESP : Nat := 13

def P_DISCONNECT : Nat := 14

/-- Message namedtuple (mqtt.py line 48): topic, payload, qos, retain.
The `retain` field holds the raw flag bit, as the code stores it. -/
structure Message where
  topic : List Nat
  payload : List Nat
  qos : Nat
  retain : Nat
  deriving DecidableEq

/-- Python's `int.from_bytes(bs, 'big')`. -/
def int_from_bytes (bs : List Nat) : Nat :=
  bs.foldl (fun a b => a * 256 + b) 0

/-- Python's `n.to_bytes(2, 'big')`; the overflow error for `n ≥ 2^16` is
not modelled — every call site uses values below `2^16`. -/
def to_bytes2 (n : Nat) : List Nat :=
  [n / 256 % 256, n % 256]

/-- Loop body of `Client.remaining_len` (mqtt.py lines 71-81): emit the
low 7 bits of `size`, with the continuation bit 128 whenever `size >> 7`
is still nonzero.  The `fuel` argument models the 4-byte `_size_buf`
buffer; the assertion in `remaining_len` guarantees at most 4 iterations,
so the fuel-exhausted branch is unreachable from `remaining_len`. -/
def remaining_len_go (fuel size : Nat) : List Nat :=
  match fuel with
  | 0 => []
  | f + 1 =>
    if size >>> 7 = 0 then [size &&& 127]
    else ((size &&& 127) ||| 128) :: remaining_len_go f (size >>> 7)

/-- `Client.remaining_len` (mqtt.py lines 68-81): the guard models
`assert size <= (256 << 20) - 1`, with `none` standing for the raised
`AssertionError`; on success the encoded varint bytes are returned. -/
def remaining_len (size : Nat) : Option (List Nat) :=
  if size ≤ (256 <<< 20) - 1 then some (remaining_len_go 4 size) else none

/-- Recursion of `Client._recv_len` (mqtt.py lines 83-92): read up to 4
bytes from the stream, accumulating 7-bit groups little-endian first; the
result pairs the decoded value with the unconsumed rest of the stream.
`none` models the raised exceptions (a recv on an exhausted stream, or a
4th byte that still has its continuation bit set). -/
def recv_len_go (stream : List Nat) (i value : Nat) : Option (Nat × List Nat) :=
  match stream with
  | [] => none
  | b :: rest =>
    let value := value ||| ((b &&& 127) <<< (7 * i))
    if b &&& 128 = 0 then some (value, rest)
    else if i < 3 then recv_len_go rest (i + 1) value
    else none

/-- `Client._recv_len` entry point. -/
def _recv_len (stream : List Nat) : Option (Nat × List Nat) :=
  recv_len_go stream 0 0

/-- `Client._send` (mqtt.py lines 94-99): flags are forced to 2 for
PUBREL/SUBSCRIBE/UNSUBSCRIBE; the result is the byte string written to
the socket (header byte, remaining-length field, payload), with `none`
modelling the assertion inside `remaining_len`. -/
def _send (ctrl_typ : Nat) (flags : Nat) (payload : List Nat) : Option (List Nat) :=
  let flags :=
    if ctrl_typ = P_PUBREL ∨ ctrl_typ = P_SUBSCRIBE ∨ ctrl_typ = P_UNSUBSCRIBE then 2
    else flags
  (remaining_len payload.length).map
    (fun rl => ((ctrl_typ <<< 4) ||| flags) :: (rl ++ payload))

/-- Client state relevant to the claims: the packet-identifier counter,
the in-flight publish queue of `(packet_id, flags, payload)` triples, and
the `connected` flag (mqtt.py lines 54-66). -/
structure ClientState where
  _packet_id : Nat
  _pub_queue : List (Nat × Nat × List Nat)
  connected : Bool
  deriving DecidableEq

/-- State of a freshly constructed `Client` (mqtt.py lines 54-66). -/
def initClient : ClientState :=
  { _packet_id := 1, _pub_queue := [], connected := false }

/-- Packet-identifier advance `self._packet_id + 1 & 0xffff or 1`
(mqtt.py lines 103 and 129). -/
def next_packet_id (pid : Nat) : Nat :=
  if (pid + 1) &&& 0xffff = 0 then 1 else (pid + 1) &&& 0xffff

/-- Sequence of identifiers returned by a fresh client: `pidSeq n` is the
identifier returned by the (n+1)-th qos-1 publish or subscribe, starting
from the constructor value `_packet_id = 1`. -/
def pidSeq : Nat → Nat
  | 0 => next_packet_id 1
  | n + 1 => next_packet_id (pidSeq n)

/-- PUBLISH payload layout built by `Client.publish` (mqtt.py lines
124-131): 2-byte big-endian topic length, topic bytes, the packet
identifier iff qos is nonzero, then the message bytes. -/
def encode_publish_payload (topic : List Nat) (qos pid : Nat) (message : List Nat) : List Nat :=
  to_bytes2 topic.length ++ topic ++ (if qos ≠ 0 then to_bytes2 pid else []) ++ message

/-- `Client.publish` (mqtt.py lines 112-135): returns the new state, the
Python return value (`none` models the implicit `None` of the qos-0 path,
which has no `return` statement), and the bytes sent. -/
def publish (st : ClientState) (topic message : List Nat) (qos : Nat) (retain : Bool) :
    ClientState × Option Nat × Option (List Nat) :=
  let flags := (qos <<< 1) ||| (if retain then 1 else 0)
  if qos ≠ 0 then
    let pid := next_packet_id st._packet_id
    let payload := encode_publish_payload topic qos pid message
    ({ st with
        _packet_id := pid,
        _pub_queue := st._pub_queue ++ [(pid, flags, payload)] },
     some pid, _send P_PUBLISH flags payload)
  else
    let payload := encode_publish_payload topic qos 0 message
    (st, none, _send P_PUBLISH flags payload)

/-- `Client.subscribe` (mqtt.py lines 101-110) over a list of topics. -/
def subscribe (st : ClientState) (topics : List (List Nat)) (qos : Nat) :
    ClientState × Nat × Option (List Nat) :=
  let pid := next_packet_id st._packet_id
  let remaining :=
    topics.foldl (fun acc topic => acc ++ to_bytes2 topic.length ++ topic ++ [qos])
      (to_bytes2 pid)
  ({ st with _packet_id := pid }, pid, _send P_SUBSCRIBE 0 remaining)

/-- `reconnect` CONNACK handling (mqtt.py lines 170-175): read one header
byte, assert its high nibble is CONNACK, set `connected := true`, unpack
exactly three more bytes, assert the return code is zero, and return the
session-present bit.  The first component is the client state as left
behind (also when an assertion fails); `none` models a raised
exception.  The socket set-up and CONNECT send of lines 156-169 do not
touch `connected` and are not needed by the claims. -/
def reconnect_ack (st : ClientState) (stream : List Nat) : ClientState × Option Nat :=
  match stream with
  | ack :: rest =>
    if ack >>> 4 = P_CONNACK then
      let st1 := { st with connected := true }
      match rest with
      | _ :: flags :: ret_code :: _ =>
        if ret_code = 0 then (st1, some (flags &&& 1)) else (st1, none)
      | _ => (st1, none)
    else (st, none)
  | [] => (st, none)

/-- Value bound to the `pid` variable by `Client._unpack_publish`: the
Python variable holds either the int `0` (qos = 0) or a two-byte slice
(qos nonzero). -/
inductive PidVal where
  | int (n : Nat)
  | bytes (bs : List Nat)
  deriving DecidableEq

/-- `Client._unpack_publish` (mqtt.py lines 177-191).  Line 187 reads
`data[:2]` — the first two bytes of the whole packet, i.e. the
topic-length field — not the identifier slice of the advanced view
`_data`, even though `_data` is advanced past the identifier. -/
def _unpack_publish (data : List Nat) (retain qos : Nat) : PidVal × Message :=
  let d1 := data.drop 2
  let topic_len := int_from_bytes (data.take 2)
  let topic := d1.take topic_len
  let d2 := d1.drop topic_len
  if qos ≠ 0 then
    let pid := PidVal.bytes (data.take 2)
    let d3 := d2.drop 2
    (pid, { topic := topic, payload := d3, qos := qos, retain := retain })
  else
    (PidVal.int 0, { topic := topic, payload := d2, qos := qos, retain := retain })

/-- Scan of `_pub_queue` by the PUBACK handler (mqtt.py lines 234-239):
delete the first entry whose packet id matches and stop; the boolean is
`true` exactly when the `for`-`else` diagnostic print runs (no match). -/
def puback_scan (queue : List (Nat × Nat × List Nat)) (packet_id : Nat) :
    List (Nat × Nat × List Nat) × Bool :=
  match queue with
  | [] => ([], true)
  | e :: rest =>
    if packet_id = e.1 then (rest, false)
    else
      let r := puback_scan rest packet_id
      (e :: r.1, r.2)

/-- Observable outcome of one `loop_read` invocation: final client state,
byte strings sent, callback invocations, and the ping-response flag. -/
structure LoopOut where
  client : ClientState
  sent : List (List Nat)
  msgs : List Message
  ping_resp : Bool
  deriving DecidableEq

/-- Result of handling one packet inside the `while` loop of
`Client.loop_read`: continue with updated state, `break`, or an uncaught
exception. -/
inductive StepRes where
  | next (st : LoopOut) (dataVar : Option (List Nat)) (rest : List Nat)
  | stop (st : LoopOut)
  | err
  deriving DecidableEq

/-- One iteration of the `while` body of `Client.loop_read` (mqtt.py
lines 205-246) on a non-empty stream: read the header byte, decode the
remaining length, bind the local `data` only when the length is nonzero
(`dataVar` models that local, with `none` standing for "not yet
assigned"), then dispatch on the packet type.  `StepRes.err` models an
uncaught exception: malformed length, short read, an unbound `data`
local, an index error in the SUBACK handler, or `sendall` applied to a
non-bytes `pid`. -/
def loop_step (st : LoopOut) (dataVar : Option (List Nat)) (stream : List Nat) : StepRes :=
  match stream with
  | [] => .stop st
  | ctrl_pkt :: s1 =>
    let ctrl_pkt_typ := ctrl_pkt >>> 4
    match _recv_len s1 with
    | none => .err
    | some (data_len, s2) =>
      if data_len ≠ 0 ∧ s2.length < data_len then .err
      else
        let dataVar := if data_len ≠ 0 then some (s2.take data_len) else dataVar
        let s3 := if data_len ≠ 0 then s2.drop data_len else s2
        if ctrl_pkt_typ = P_PINGRESP then
          .next { st with ping_resp := true } dataVar s3
        else if ctrl_pkt_typ = P_SUBACK then
          match dataVar with
          | none => .err
          | some data => if 2 < data.length then .next st dataVar s3 else .err
        else if ctrl_pkt_typ = P_PUBLISH then
          match dataVar with
          | none => .err
          | some data =>
            let retain := ctrl_pkt &&& 1
            let qos := (ctrl_pkt >>> 1) &&& 3
            let pm := _unpack_publish data retain qos
            if qos = 1 then
              match pm.1 with
              | .bytes bs =>
                match _send P_PUBACK 0 bs with
                | some out =>
                  .next { st with sent := st.sent ++ [out], msgs := st.msgs ++ [pm.2] }
                    dataVar s3
                | none => .err
              | .int _ => .err
            else
              .next { st with msgs := st.msgs ++ [pm.2] } dataVar s3
        else if ctrl_pkt_typ = P_PUBACK then
          match dataVar with
          | none => .err
          | some data =>
            let packet_id := int_from_bytes data
            let r := puback_scan st.client._pub_queue packet_id
            .next { st with client := { st.client with _pub_queue := r.1 } } dataVar s3
        else if ctrl_pkt_typ = P_DISCONNECT then
          .stop { st with client := { st.client with connected := false } }
        else
          .next st dataVar s3

/-- Driver of the `while` loop of `Client.loop_read`: iterate `loop_step`
until the stream is drained (the poll reports no more data), a handler
breaks, or an exception escapes (`none`).  `fuel = stream.length` always
suffices because every iteration consumes at least one byte. -/
def loop_go (fuel : Nat) (st : LoopOut) (dataVar : Option (List Nat)) (stream : List Nat) :
    Option LoopOut :=
  match stream with
  | [] => some st
  | _ :: _ =>
    match fuel with
    | 0 => none
    | f + 1 =>
      match loop_step st dataVar stream with
      | .next st1 d1 rest => loop_go f st1 d1 rest
      | .stop st1 => some st1
      | .err => none

/-- `Client.loop_read` (mqtt.py lines 193-247) driven over an explicit
input stream; the `data` local starts out unbound and `ping_resp` starts
out `False`. -/
def loop_read (st : ClientState) (stream : List Nat) : Option LoopOut :=
  loop_go stream.length { client := st, sent := [], msgs := [], ping_resp := false } none stream

/-! ### Bridging lemmas between the bit operations of the source and
ordinary arithmetic -/

theorem and_127_eq_mod (b : Nat) : b &&& 127 = b % 128 := by
  have h := Nat.and_pow_two_sub_one_eq_mod b 7
  norm_num at h
  exact h

theorem shiftRight_7_eq_div (b : Nat) : b >>> 7 = b / 128 := by
  rw [Nat.shiftRight_eq_div_pow]

theorem lor_shift_add (v x k : Nat) (h : v < 2 ^ k) :
    v ||| (x <<< k) = v + x * 2 ^ k := by
  apply Nat.eq_of_testBit_eq
  intro i
  rw [Nat.testBit_or, Nat.testBit_shiftLeft]
  have hcomm : v + x * 2 ^ k = 2 ^ k * x + v := by ring
  rw [hcomm, Nat.testBit_mul_pow_two_add x h i]
  by_cases hik : i < k
  · have hk : ¬ (k ≤ i) := by omega
    simp [hik, hk]
  · have hk : k ≤ i := by omega
    have hv : v.testBit i = false :=
      Nat.testBit_lt_two_pow (lt_of_lt_of_le h (Nat.pow_le_pow_right (by norm_num) hk))
    simp [hik, hk, hv]

theorem lor_128_eq_add {x : Nat} (h : x < 128) : x ||| 128 = x + 128 := by
  have h2 := lor_shift_add x 1 7 h
  norm_num at h2
  exact h2

theorem and_128_eq_zero {x : Nat} (h : x < 128) : x &&& 128 = 0 := by
  have h1 : (128 : Nat) = 2 ^ 7 := rfl
  rw [h1, Nat.and_two_pow, Nat.testBit_lt_two_pow h]
  rfl

theorem add_128_and_128 {x : Nat} (h : x < 128) : (x + 128) &&& 128 = 128 := by
  have h1 : (128 : Nat) = 2 ^ 7 := rfl
  rw [h1, Nat.and_two_pow]
  have h2 : (x + 2 ^ 7).testBit 7 = true := by
    have h3 : x + 2 ^ 7 = 2 ^ 7 * 1 + x := by ring
    rw [h3, Nat.testBit_mul_pow_two_add 1 h 7]
    simp
  rw [h2]
  rfl

/-! ### Claim theorems -/

/-- Claim C1 (code bug): feeding `loop_read` the inbound PUBLISH with
topic "a/b" (bytes 97,47,98), qos 1, identifier 0x0001 and payload "hi"
(bytes 104,105) produces exactly one callback invocation with the right
`Message`, but the single PUBACK sent is `[64, 2, 0, 3]` — its payload is
the topic-length prefix 00 03, not the packet identifier 00 01 the claim
requires (mqtt.py line 187 reads `data[:2]`). -/
theorem c1_loop_read_puback_carries_topic_len :
    loop_read initClient [50, 9, 0, 3, 97, 47, 98, 0, 1, 104, 105] =
      some { client := initClient,
             sent := [[64, 2, 0, 3]],
             msgs := [{ topic := [97, 47, 98], payload := [104, 105], qos := 1, retain := 0 }],
             ping_resp := false }
    ∧ ([64, 2, 0, 3] : List Nat) ≠ [64, 2, 0, 1] := by
  decide

/-- Claim C2 (code bug): decoding the publish payload built by the
encoder for topic "a" (byte 97), qos 1, identifier 2, empty payload does
return the right `Message`, but the `pid` component is the raw
topic-length bytes `[0, 1]` — neither the identifier 2 nor its two-byte
encoding `[0, 2]` — so the decoder is not the inverse of the encoder. -/
theorem c2_unpack_publish_not_inverse :
    _unpack_publish (encode_publish_payload [97] 1 2 []) 0 1 =
      (PidVal.bytes [0, 1], { topic := [97], payload := [], qos := 1, retain := 0 })
    ∧ PidVal.bytes [0, 1] ≠ PidVal.int 2
    ∧ PidVal.bytes [0, 1] ≠ PidVal.bytes (to_bytes2 2) := by
  decide

/-- Claim C3 (code bug): `publish` with qos 0 returns `None` (the qos-0
path has no `return` statement), not the `0` stated by the claim and by
the function's own docstring, while leaving the in-flight queue
unchanged; with qos 1 it returns the nonzero identifier 2 and appends
exactly one in-flight entry keyed by it. -/
theorem c3_publish_qos0_returns_none :
    publish initClient [97] [98] 0 false = (initClient, none, some [48, 4, 0, 1, 97, 98])
    ∧ (none : Option Nat) ≠ some 0
    ∧ publish initClient [97] [98] 1 false =
        ({ _packet_id := 2, _pub_queue := [(2, 2, [0, 1, 97, 0, 2, 98])], connected := false },
         some 2, some [50, 6, 0, 1, 97, 0, 2, 98]) := by
  decide

/-- Claim C4 (code bug): on a CONNACK carrying the nonzero return code 5
(stream bytes 0x20, 0x02, 0x00, 0x05) the reconnect handshake fails
(`none`) as the claim demands, but `connected` has already been set to
`true` — the code flips the flag before reading the return code, so the
claim "without connected ever having been set to true" fails. -/
theorem c4_connected_set_before_return_code_check :
    reconnect_ack initClient [32, 2, 0, 5] =
      ({ _packet_id := 1, _pub_queue := [], connected := true }, none)
    ∧ (reconnect_ack initClient [32, 2, 0, 5]).1.connected = true := by
  decide

/-- Claim C6, counterexample: the first identifier returned by a fresh
client (whose counter starts at 1 and is advanced before use) is 2, so
the returned sequence does not start at 1. -/
theorem c6_first_returned_id_is_two : pidSeq 0 = 2 ∧ pidSeq 0 ≠ 1 := by
  decide

/-- Claim C9, counterexample: encoding size 268435455 does not fail — the
assert bound in `remaining_len` is `(256 << 20) - 1 = 268435455`
inclusive — and produces the four bytes FF FF FF 7F. -/
theorem c9_encoding_max_size_succeeds :
    remaining_len 268435455 = some [255, 255, 255, 127] := by
  decide

/-! ### Unfolding lemmas -/

theorem remaining_len_go_succ (f size : Nat) :
    remaining_len_go (f + 1) size =
      if size >>> 7 = 0 then [size &&& 127]
      else ((size &&& 127) ||| 128) :: remaining_len_go f (size >>> 7) := rfl

theorem recv_len_go_cons (b : Nat) (rest : List Nat) (i value : Nat) :
    recv_len_go (b :: rest) i value =
      (if b &&& 128 = 0 then some (value ||| ((b &&& 127) <<< (7 * i)), rest)
       else if i < 3 then recv_len_go rest (i + 1) (value ||| ((b &&& 127) <<< (7 * i)))
       else none) := rfl

/-! ### Round trip of the remaining-length codec -/

theorem recv_one (size i value : Nat) (rest : List Nat) (hsize : size < 128)
    (hv : value < 2 ^ (7 * i)) :
    recv_len_go ((size &&& 127) :: rest) i value = some (value + size * 2 ^ (7 * i), rest) := by
  have h127 : size &&& 127 = size := by rw [and_127_eq_mod, Nat.mod_eq_of_lt hsize]
  rw [h127, recv_len_go_cons, h127, and_128_eq_zero hsize,
    lor_shift_add value size (7 * i) hv]
  simp

theorem pow_seven_mul_succ (j : Nat) : (2 : Nat) ^ (7 * (j + 1)) = 128 * 2 ^ (7 * j) := by
  rw [show (128 : Nat) = 2 ^ 7 from rfl, ← pow_add]
  congr 1
  ring

theorem recv_encode (f : Nat) :
    ∀ size i value rest, size < 2 ^ (7 * (f + 1)) → i + (f + 1) ≤ 4 → value < 2 ^ (7 * i) →
      recv_len_go (remaining_len_go (f + 1) size ++ rest) i value =
        some (value + size * 2 ^ (7 * i), rest) := by
  induction f with
  | zero =>
    intro size i value rest hsize _ hv
    have hlt : size < 128 := by
      have h7 : (2 : Nat) ^ (7 * (0 + 1)) = 128 := by norm_num
      omega
    have hs : size >>> 7 = 0 := by
      rw [shiftRight_7_eq_div]
      omega
    rw [remaining_len_go_succ, if_pos hs, List.singleton_append]
    exact recv_one size i value rest hlt hv
  | succ f ih =>
    intro size i value rest hsize hi hv
    by_cases hs : size >>> 7 = 0
    · have hlt : size < 128 := by
        rw [shiftRight_7_eq_div] at hs
        omega
      rw [remaining_len_go_succ, if_pos hs, List.singleton_append]
      exact recv_one size i value rest hlt hv
    · have hge : 128 ≤ size := by
        rw [shiftRight_7_eq_div] at hs
        omega
      rw [remaining_len_go_succ, if_neg hs, List.cons_append, recv_len_go_cons]
      have hmlt : size % 128 < 128 := Nat.mod_lt _ (by norm_num)
      have hb : (size &&& 127) ||| 128 = size % 128 + 128 := by
        rw [and_127_eq_mod]
        exact lor_128_eq_add hmlt
      rw [hb, add_128_and_128 hmlt]
      rw [if_neg (by norm_num : ¬ (128 : Nat) = 0)]
      rw [if_pos (by omega : i < 3)]
      have hb127 : (size % 128 + 128) &&& 127 = size % 128 := by
        rw [and_127_eq_mod]
        omega
      rw [hb127, lor_shift_add value (size % 128) (7 * i) hv]
      have hz1 : size >>> 7 < 2 ^ (7 * (f + 1)) := by
        rw [shiftRight_7_eq_div, Nat.div_lt_iff_lt_mul (by norm_num : (0 : Nat) < 128)]
        have hmul : (2 : Nat) ^ (7 * (f + 1)) * 128 = 2 ^ (7 * (f + 1 + 1)) := by
          rw [show (128 : Nat) = 2 ^ 7 from rfl, ← pow_add]
          congr 1
        rw [hmul]
        exact hsize
      have hz3 : value + (size % 128) * 2 ^ (7 * i) < 2 ^ (7 * (i + 1)) := by
        have hx : (size % 128) * 2 ^ (7 * i) ≤ 127 * 2 ^ (7 * i) :=
          Nat.mul_le_mul_right _ (by omega)
        have hp := pow_seven_mul_succ i
        have hpos : 0 < (2 : Nat) ^ (7 * i) := Nat.pos_pow_of_pos _ (by norm_num)
        omega
      rw [ih (size >>> 7) (i + 1) (value + (size % 128) * 2 ^ (7 * i)) rest hz1 (by omega) hz3]
      have harith : value + size % 128 * 2 ^ (7 * i) + (size >>> 7) * 2 ^ (7 * (i + 1))
          = value + size * 2 ^ (7 * i) := by
        rw [shiftRight_7_eq_div, pow_seven_mul_succ i]
        have hsz : size % 128 + 128 * (size / 128) = size := Nat.mod_add_div size 128
        calc value + size % 128 * 2 ^ (7 * i) + size / 128 * (128 * 2 ^ (7 * i))
            = value + (size % 128 + 128 * (size / 128)) * 2 ^ (7 * i) := by ring
          _ = value + size * 2 ^ (7 * i) := by rw [hsz]
      rw [harith]

/-! ### Minimality of the encoding length -/

theorem size_shiftRight_7 {n : Nat} (h : 128 ≤ n) : Nat.size (n >>> 7) = Nat.size n - 7 := by
  rw [shiftRight_7_eq_div]
  apply Nat.le_antisymm
  · rw [Nat.size_le, Nat.div_lt_iff_lt_mul (by norm_num : (0 : Nat) < 128)]
    have h7 : 7 < Nat.size n := Nat.lt_size.mpr (le_trans (by norm_num) h)
    have hmul : (2 : Nat) ^ (Nat.size n - 7) * 128 = 2 ^ Nat.size n := by
      rw [show (128 : Nat) = 2 ^ 7 from rfl, ← pow_add]
      congr 1
      omega
    rw [hmul]
    exact Nat.lt_size_self n
  · have hle : Nat.size n ≤ Nat.size (n / 128) + 7 := by
      rw [Nat.size_le]
      have h2 : n / 128 < 2 ^ Nat.size (n / 128) := Nat.lt_size_self _
      calc n < 128 * (n / 128) + 128 := by omega
        _ = 128 * (n / 128 + 1) := by ring
        _ ≤ 128 * 2 ^ Nat.size (n / 128) := Nat.mul_le_mul_left _ (by omega)
        _ = 2 ^ (Nat.size (n / 128) + 7) := by
            rw [show (128 : Nat) = 2 ^ 7 from rfl, ← pow_add]
            congr 1
            omega
    omega

theorem remaining_len_go_length (f : Nat) :
    ∀ size, size < 2 ^ (7 * (f + 1)) →
      (remaining_len_go (f + 1) size).length = max 1 ((Nat.size size + 6) / 7) := by
  induction f with
  | zero =>
    intro size hsize
    have hlt : size < 128 := by
      have h7 : (2 : Nat) ^ (7 * (0 + 1)) = 128 := by norm_num
      omega
    have hs : size >>> 7 = 0 := by
      rw [shiftRight_7_eq_div]
      omega
    rw [remaining_len_go_succ, if_pos hs]
    have hsz : Nat.size size ≤ 7 := Nat.size_le.mpr hlt
    simp only [List.length_singleton]
    omega
  | succ f ih =>
    intro size hsize
    by_cases hs : size >>> 7 = 0
    · have hlt : size < 128 := by
        rw [shiftRight_7_eq_div] at hs
        omega
      rw [remaining_len_go_succ, if_pos hs]
      have hsz : Nat.size size ≤ 7 := Nat.size_le.mpr hlt
      simp only [List.length_singleton]
      omega
    · have hge : 128 ≤ size := by
        rw [shiftRight_7_eq_div] at hs
        omega
      rw [remaining_len_go_succ, if_neg hs]
      have hz1 : size >>> 7 < 2 ^ (7 * (f + 1)) := by
        rw [shiftRight_7_eq_div, Nat.div_lt_iff_lt_mul (by norm_num : (0 : Nat) < 128)]
        have hmul : (2 : Nat) ^ (7 * (f + 1)) * 128 = 2 ^ (7 * (f + 1 + 1)) := by
          rw [show (128 : Nat) = 2 ^ 7 from rfl, ← pow_add]
          congr 1
        rw [hmul]
        exact hsize
      have h8 : 8 ≤ Nat.size size := by
        have h7 : 7 < Nat.size size := Nat.lt_size.mpr (le_trans (by norm_num) hge)
        omega
      rw [List.length_cons, ih (size >>> 7) hz1, size_shiftRight_7 hge]
      omega

/-- Claim C5: for every size in [0, 268435454], decoding the encoded
remaining-length field yields the size back (with the rest of the stream
untouched), and the encoding occupies the minimal number of bytes,
`ceil(bitlength(size)/7)` with a minimum of 1. -/
theorem c5_remaining_len_round_trip (size : Nat) (bs rest : List Nat)
    (hsize : size ≤ 268435454) (henc : remaining_len size = some bs) :
    _recv_len (bs ++ rest) = some (size, rest)
    ∧ bs.length = max 1 ((Nat.size size + 6) / 7) := by
  have h20 : (256 <<< 20 : Nat) - 1 = 268435455 := by decide
  have hbs : bs = remaining_len_go 4 size := by
    unfold remaining_len at henc
    rw [h20, if_pos (by omega : size ≤ 268435455)] at henc
    exact (Option.some_inj.mp henc).symm
  have hpow : size < 2 ^ (7 * (3 + 1)) := by
    have h28 : (2 : Nat) ^ (7 * (3 + 1)) = 268435456 := by norm_num
    omega
  subst hbs
  constructor
  · have h := recv_encode 3 size 0 0 rest hpow (by omega) (by norm_num)
    unfold _recv_len
    simpa using h
  · simpa using remaining_len_go_length 3 size hpow

/-- Claim C5 witness at size 200: the encoding is the two bytes
`[200, 1]`, decoding them (with trailing stream `[7]`) returns 200, and
the length matches the minimality formula. -/
theorem c5_remaining_len_round_trip_witness :
    (200 ≤ 268435454 ∧ remaining_len 200 = some [200, 1])
    ∧ (_recv_len ([200, 1] ++ [7]) = some (200, [7])
       ∧ ([200, 1] : List Nat).length = max 1 ((Nat.size 200 + 6) / 7)) :=
  ⟨⟨by norm_num, by decide⟩,
   c5_remaining_len_round_trip 200 [200, 1] [7] (by norm_num) (by decide)⟩

/-- Stepping behaviour of the packet-identifier generator on the range it
preserves: add one, wrapping 65535 back to 1. -/
theorem next_packet_id_step (p : Nat) (h1 : 1 ≤ p) (h2 : p ≤ 65535) :
    next_packet_id p = if p = 65535 then 1 else p + 1 := by
  have hand : (p + 1) &&& 0xffff = (p + 1) % 65536 := by
    have h := Nat.and_pow_two_sub_one_eq_mod (p + 1) 16
    norm_num at h
    exact h
  unfold next_packet_id
  rw [hand]
  by_cases hp : p = 65535
  · subst hp
    decide
  · rw [if_neg hp, Nat.mod_eq_of_lt (by omega), if_neg (by omega)]

/-- Claim C6, amended: the identifiers returned by a fresh client start
at 2, stay in [1, 65535] (so 0 is never yielded), and advance by exactly
one with a wrap from 65535 back to 1 — at every position of the sequence,
in particular over 70000 successive advances. -/
theorem c6_pid_sequence_from_two :
    pidSeq 0 = 2
    ∧ ∀ n, (1 ≤ pidSeq n ∧ pidSeq n ≤ 65535)
        ∧ pidSeq (n + 1) = (if pidSeq n = 65535 then 1 else pidSeq n + 1) := by
  have hbounds : ∀ n, 1 ≤ pidSeq n ∧ pidSeq n ≤ 65535 := by
    intro n
    induction n with
    | zero => decide
    | succ n ih =>
      obtain ⟨h1, h2⟩ := ih
      have h := next_packet_id_step (pidSeq n) h1 h2
      show 1 ≤ next_packet_id (pidSeq n) ∧ next_packet_id (pidSeq n) ≤ 65535
      rw [h]
      split_ifs <;> omega
  refine ⟨by decide, fun n => ⟨hbounds n, ?_⟩⟩
  have h := next_packet_id_step (pidSeq n) (hbounds n).1 (hbounds n).2
  show next_packet_id (pidSeq n) = _
  exact h

/-- Claim C9, amended: for every size strictly greater than 268435455 the
remaining-length encoder fails (the assertion raises) rather than
producing bytes. -/
theorem c9_oversize_encoding_fails (size : Nat) (h : 268435455 < size) :
    remaining_len size = none := by
  unfold remaining_len
  have h20 : (256 <<< 20 : Nat) - 1 = 268435455 := by decide
  rw [h20, if_neg (by omega : ¬ size ≤ 268435455)]

/-- Claim C9 witness: encoding 268435456 fails. -/
theorem c9_oversize_encoding_fails_witness :
    268435455 < 268435456 ∧ remaining_len 268435456 = none :=
  ⟨by norm_num, c9_oversize_encoding_fails 268435456 (by norm_num)⟩

/-! ### PUBACK queue scan -/

theorem puback_scan_cons (a : Nat × Nat × List Nat) (rest : List (Nat × Nat × List Nat))
    (pid : Nat) :
    puback_scan (a :: rest) pid =
      if pid = a.1 then (rest, false)
      else (a :: (puback_scan rest pid).1, (puback_scan rest pid).2) := rfl

theorem puback_scan_found (l2 : List (Nat × Nat × List Nat)) (e : Nat × Nat × List Nat)
    (pid : Nat) (h2 : e.1 = pid) :
    ∀ l1, (∀ x ∈ l1, x.1 ≠ pid) → puback_scan (l1 ++ e :: l2) pid = (l1 ++ l2, false) := by
  intro l1
  induction l1 with
  | nil =>
    intro _
    rw [List.nil_append, puback_scan_cons, if_pos h2.symm, List.nil_append]
  | cons a l ihl =>
    intro h1
    have ha : a.1 ≠ pid := h1 a (List.mem_cons_self a l)
    rw [List.cons_append, puback_scan_cons, if_neg (fun hh => ha hh.symm),
      ihl (fun x hx => h1 x (List.mem_cons_of_mem a hx))]
    rfl

theorem puback_scan_not_found (pid : Nat) :
    ∀ q, (∀ x ∈ q, x.1 ≠ pid) → puback_scan q pid = (q, true) := by
  intro q
  induction q with
  | nil =>
    intro _
    rfl
  | cons a l ihl =>
    intro h3
    have ha : a.1 ≠ pid := h3 a (List.mem_cons_self a l)
    rw [puback_scan_cons, if_neg (fun hh => ha hh.symm),
      ihl (fun x hx => h3 x (List.mem_cons_of_mem a hx))]

/-- Claim C7: when the in-flight queue decomposes as `l1 ++ e :: l2` with
`e` the (first) entry carrying the acknowledged identifier, the PUBACK
scan removes exactly `e`, leaves every other entry unchanged in order,
and prints no diagnostic; when no entry matches, the queue is returned
unchanged with the diagnostic flag set and no error is raised (the scan
is a total function). -/
theorem c7_puback_removes_exactly_the_match (l1 l2 q : List (Nat × Nat × List Nat))
    (e : Nat × Nat × List Nat) (pid : Nat)
    (h1 : ∀ x ∈ l1, x.1 ≠ pid) (h2 : e.1 = pid) (h3 : ∀ x ∈ q, x.1 ≠ pid) :
    puback_scan (l1 ++ e :: l2) pid = (l1 ++ l2, false)
    ∧ puback_scan q pid = (q, true) :=
  ⟨puback_scan_found l2 e pid h2 l1 h1, puback_scan_not_found pid q h3⟩

/-- Claim C7 witness: a queue `[(1,·),(2,·),(3,·)]` acknowledged at id 2
loses exactly the middle entry; a queue `[(5,·)]` acknowledged at id 2 is
unchanged with the diagnostic flag set. -/
theorem c7_puback_removes_exactly_the_match_witness :
    (∀ x ∈ ([(1, 0, [])] : List (Nat × Nat × List Nat)), x.1 ≠ 2)
    ∧ (((2, 7, [9]) : Nat × Nat × List Nat).1 = 2)
    ∧ (∀ x ∈ ([(5, 0, [])] : List (Nat × Nat × List Nat)), x.1 ≠ 2)
    ∧ (puback_scan (([(1, 0, [])] : List (Nat × Nat × List Nat)) ++
          ((2, 7, [9]) : Nat × Nat × List Nat) :: [(3, 0, [])]) 2
        = ([(1, 0, [])] ++ [(3, 0, [])], false)
       ∧ puback_scan ([(5, 0, [])] : List (Nat × Nat × List Nat)) 2 = ([(5, 0, [])], true)) :=
  ⟨by decide, by decide, by decide,
   c7_puback_removes_exactly_the_match [(1, 0, [])] [(3, 0, [])] [(5, 0, [])]
     (2, 7, [9]) 2 (by decide) (by decide) (by decide)⟩

/-- Claim C8: for every caller-supplied flags value, a SUBSCRIBE,
UNSUBSCRIBE or PUBREL packet that `_send` emits has its fixed-header
flags nibble equal to 0b0010 (and its type nibble equal to the control
type): the codec overrides whatever flags the caller passed. -/
theorem c8_send_forces_flags_two (ctrl_typ flags : Nat) (payload out : List Nat)
    (htyp : ctrl_typ = P_PUBREL ∨ ctrl_typ = P_SUBSCRIBE ∨ ctrl_typ = P_UNSUBSCRIBE)
    (hout : _send ctrl_typ flags payload = some out) :
    out.headD 0 &&& 15 = 2 ∧ out.headD 0 >>> 4 = ctrl_typ := by
  unfold _send at hout
  rw [if_pos htyp] at hout
  obtain ⟨rl, hrl, hfx⟩ := Option.map_eq_some'.mp hout
  subst hfx
  rcases htyp with h | h | h <;> subst h <;>
    simp only [List.headD_cons] <;> exact ⟨by decide, by decide⟩

/-- Claim C8 witness: a SUBSCRIBE sent with caller flags 15 still goes
out with header byte 0x82, whose flags nibble is 2. -/
theorem c8_send_forces_flags_two_witness :
    (P_SUBSCRIBE = P_PUBREL ∨ P_SUBSCRIBE = P_SUBSCRIBE ∨ P_SUBSCRIBE = P_UNSUBSCRIBE)
    ∧ _send P_SUBSCRIBE 15 [] = some [130, 0]
    ∧ (([130, 0] : List Nat).headD 0 &&& 15 = 2
       ∧ ([130, 0] : List Nat).headD 0 >>> 4 = P_SUBSCRIBE) :=
  ⟨Or.inr (Or.inl rfl), by decide,
   c8_send_forces_flags_two P_SUBSCRIBE 15 [] [130, 0] (Or.inr (Or.inl rfl)) (by decide)⟩

/-- Claim C10: when a received packet has remaining length 0 the `data`
local is not assigned in that iteration, so a SUBACK or PUBACK handler
reads whatever the variable held before: with `data` still unbound (first
packet of the invocation) the iteration fails with an unbound-variable
error, and a PUBACK with leftover bytes from a previously received packet
processes those stale bytes as the acknowledged identifier, leaving the
`data` variable untouched. -/
theorem c10_zero_length_reads_stale (st : LoopOut) (ctrl_pkt : Nat) (s1 s2 stale : List Nat)
    (hlen : _recv_len s1 = some (0, s2))
    (htyp : ctrl_pkt >>> 4 = P_SUBACK ∨ ctrl_pkt >>> 4 = P_PUBACK) :
    loop_step st none (ctrl_pkt :: s1) = StepRes.err
    ∧ (ctrl_pkt >>> 4 = P_PUBACK →
        loop_step st (some stale) (ctrl_pkt :: s1) =
          StepRes.next
            { st with client := { st.client with
                _pub_queue := (puback_scan st.client._pub_queue (int_from_bytes stale)).1 } }
            (some stale) s2) := by
  constructor
  · rcases htyp with h | h <;>
      simp [loop_step, hlen, h, P_PINGRESP, P_SUBACK, P_PUBLISH, P_PUBACK, P_DISCONNECT]
  · intro h4
    simp [loop_step, hlen, h4, P_PINGRESP, P_SUBACK, P_PUBLISH, P_PUBACK, P_DISCONNECT]

/-- Claim C10 witness: a PUBACK header (0x40) followed by remaining
length 0, processed first with `data` unbound (error) and then with the
two stale bytes `[0, 1]` left over from an earlier packet. -/
theorem c10_zero_length_reads_stale_witness :
    _recv_len [0] = some (0, [])
    ∧ ((64 : Nat) >>> 4 = P_SUBACK ∨ (64 : Nat) >>> 4 = P_PUBACK)
    ∧ (loop_step { client := initClient, sent := [], msgs := [], ping_resp := false }
          none [64, 0] = StepRes.err
       ∧ ((64 : Nat) >>> 4 = P_PUBACK →
           loop_step { client := initClient, sent := [], msgs := [], ping_resp := false }
               (some [0, 1]) [64, 0] =
             StepRes.next
               { client := { initClient with
                   _pub_queue := (puback_scan initClient._pub_queue (int_from_bytes [0, 1])).1 },
                 sent := [], msgs := [], ping_resp := false }
               (some [0, 1]) [])) :=
  ⟨by decide, Or.inr (by decide),
   c10_zero_length_reads_stale { client := initClient, sent := [], msgs := [], ping_resp := false }
     64 [0] [] [0, 1] (by decide) (Or.inr (by decide))⟩
